import Mathlib

/-!
Shallow embedding of the sockgauge TCP relay (src/main.rs, src/proxy.rs,
src/reporter.rs).  Pure data and state-passing functions mirror the Rust
source; `Option` models panics, `Except` models fallible operations, and
per-connection socket behaviour (bytes read, shutdown outcomes) is passed
in explicitly as data.
-/

namespace Sockgauge

/-- Socket addresses (`std::net::SocketAddr`), abstracted to naturals. -/
abbrev Addr := Nat

/-- Instants (`std::time::SystemTime`), abstracted to naturals. -/
abbrev Timestamp := Nat

/-- The direction in which a transfer error was encountered (reporter.rs). -/
inductive Direction
  | clientToServer
  | serverToClient
  deriving DecidableEq, Repr

/-- Errors pertaining to ungraceful socket closure:
`SocketCloseError(Direction, String)` in reporter.rs. -/
structure SocketCloseError where
  direction : Direction
  message : String
  deriving DecidableEq, Repr

/-- Lifecycle events recorded by the reporter (`Event` in reporter.rs). -/
inductive Event
  | opened (addr : Addr)
  | closedGracefully (addr : Addr)
  | closedWithError (addr : Addr) (err : SocketCloseError)
  deriving DecidableEq, Repr

/-- Display implementation for `SocketCloseError` (reporter.rs lines 147-160):
both match arms write the same fixed prefix, then the underlying message. -/
def SocketCloseError.fmt (e : SocketCloseError) : String :=
  (match e.direction with
    | Direction.clientToServer => "Error while forwarding client traffic to the server: "
    | Direction.serverToClient => "Error while forwarding client traffic to the server: ")
    ++ e.message

/-- The reporter's `HashMap<SocketAddr, SystemTime>` as an association list
with unique keys. -/
abbrev ConnMap := List (Addr × Timestamp)

/-- Keys of the connected-time map. -/
def keys (m : ConnMap) : List Addr :=
  m.map Prod.fst

/-- HashMap::insert — replaces the value when the key is present, otherwise
adds a new entry. -/
def mapInsert (a : Addr) (t : Timestamp) : ConnMap → ConnMap
  | [] => [(a, t)]
  | (b, u) :: rest =>
    if b = a then (a, t) :: rest else (b, u) :: mapInsert a t rest

/-- HashMap::remove — returns the removed value and the remaining map, or
`none` when the key is absent. -/
def mapRemove (a : Addr) : ConnMap → Option (Timestamp × ConnMap)
  | [] => none
  | (b, u) :: rest =>
    if b = a then some (u, rest)
    else
      match mapRemove a rest with
      | none => none
      | some (v, m) => some (v, (b, u) :: m)

/-- HashMap::get — looks up the stored timestamp for an address. -/
def mapLookup (a : Addr) : ConnMap → Option Timestamp
  | [] => none
  | (b, u) :: rest => if b = a then some u else mapLookup a rest

/-- Removes the first occurrence of an address from a list of addresses. -/
def eraseAddr (a : Addr) : List Addr → List Addr
  | [] => []
  | b :: rest => if b = a then rest else b :: eraseAddr a rest

/-- State of `ReporterActor` (reporter.rs): the running count and the map of
socket addresses to the time they connected. -/
structure ReporterState where
  count : Nat
  connected_time : ConnMap
  deriving DecidableEq, Repr

/-- Initial reporter state (`ReporterActor::new`): zero count, empty map. -/
def initialReporter : ReporterState :=
  { count := 0, connected_time := [] }

/-- Shared logic for when a socket is closed (reporter.rs lines 126-140):
decrement the count (the checked `u64` subtraction panics on underflow,
modelled as `none`), then remove the stored timestamp — its absence is the
first `expect` panic, also modelled as `none` — and compute the elapsed
duration, where `elapsed()` fails when the stored time is later than `now`
(the system clock moved backwards) and the second `expect` panics, again
modelled as `none`. -/
def on_socket_closed (s : ReporterState) (addr : Addr) (now : Timestamp) :
    Option (Nat × ReporterState) :=
  if s.count = 0 then none
  else
    match mapRemove addr s.connected_time with
    | none => none
    | some (t, m) =>
      if now < t then none
      else some (now - t, { count := s.count - 1, connected_time := m })

/-- Event handler of the reporter actor (`ReporterActor::receive`,
reporter.rs lines 90-123).  `now` is the current time at which the event is
processed; `none` models a panic that stops the actor's processing loop. -/
def receive (s : ReporterState) (e : Event) (now : Timestamp) : Option ReporterState :=
  match e with
  | Event.opened addr =>
    some { count := s.count + 1, connected_time := mapInsert addr now s.connected_time }
  | Event.closedGracefully addr =>
    match on_socket_closed s addr now with
    | none => none
    | some (_, s') => some s'
  | Event.closedWithError addr _ =>
    match on_socket_closed s addr now with
    | none => none
    | some (_, s') => some s'

/-- Mailbox processing loop of the reporter actor (`ReporterActor::run`):
events are consumed strictly in arrival order, each paired with the time at
which it is processed; a panic (`none`) stops the loop. -/
def processTrace (s : ReporterState) : List (Event × Timestamp) → Option ReporterState
  | [] => some s
  | (e, t) :: rest =>
    match receive s e t with
    | none => none
    | some s' => processTrace s' rest

/-- Number of `Opened` events in a trace. -/
def countOpens : List (Event × Timestamp) → Nat
  | [] => 0
  | (Event.opened _, _) :: rest => countOpens rest + 1
  | _ :: rest => countOpens rest

/-- Number of `Closed*` events (graceful or with error) in a trace. -/
def countCloses : List (Event × Timestamp) → Nat
  | [] => 0
  | (Event.opened _, _) :: rest => countCloses rest
  | _ :: rest => countCloses rest + 1

/-- Well-formed trace relative to the currently open connections (`op`
holds their addresses with their connect times): every `Opened` is for an
address not currently open, and every `Closed*` is for a currently open
address — so it matches exactly one unconsumed open — whose stored connect
time is no later than the close's processing time (the clock does not move
backwards between a connection's open and its close). -/
def wfT (op : ConnMap) : List (Event × Timestamp) → Bool
  | [] => true
  | (Event.opened a, t) :: rest =>
    !(decide (a ∈ keys op)) && wfT (op ++ [(a, t)]) rest
  | (Event.closedGracefully a, t) :: rest =>
    match mapRemove a op with
    | none => false
    | some (t0, op') => decide (t0 ≤ t) && wfT op' rest
  | (Event.closedWithError a _, t) :: rest =>
    match mapRemove a op with
    | none => false
    | some (t0, op') => decide (t0 ≤ t) && wfT op' rest

/-- Precondition of claim C1 exactly as stated: each `Closed*` event for an
address is preceded by exactly one unconsumed `Opened` event for that
address (`op` is the multiset of unconsumed opens); `Opened` events are not
constrained. -/
def preC1B (op : List Addr) : List (Event × Timestamp) → Bool
  | [] => true
  | (Event.opened a, _) :: rest => preC1B (a :: op) rest
  | (Event.closedGracefully a, _) :: rest =>
    decide (op.count a = 1) && preC1B (eraseAddr a op) rest
  | (Event.closedWithError a _, _) :: rest =>
    decide (op.count a = 1) && preC1B (eraseAddr a op) rest

/-- Checks that, after processing the first `n` events of a trace from the
initial state, no panic occurred and the running count equals the number of
entries in the connected-time map. -/
def stateOk (tr : List (Event × Timestamp)) (n : Nat) : Bool :=
  match processTrace initialReporter (tr.take n) with
  | none => false
  | some s => s.count == s.connected_time.length

/-- The reporter's count after processing a whole trace from the initial
state (`none` when processing panicked). -/
def finalCount (tr : List (Event × Timestamp)) : Option Nat :=
  (processTrace initialReporter tr).map ReporterState.count

/-- One read off a socket's read half: a nonempty chunk of bytes, or a read
error; end of the list is end-of-input (a zero-byte read). -/
inductive ReadItem
  | data (bytes : List Nat)
  | readErr (msg : String)
  deriving DecidableEq, Repr

/-- Write half of a socket: the bytes written to it so far and whether its
write side has been shut down. -/
structure WriteHalf where
  written : List Nat
  isShutdown : Bool
  deriving DecidableEq, Repr

/-- Concatenation of a list of chunks. -/
def flat : List (List Nat) → List Nat
  | [] => []
  | c :: cs => c ++ flat cs

/-- tokio::io::copy — repeatedly reads a chunk from the source and writes it
to the destination's write half until the source reaches end-of-input;
a read error aborts the copy with that error. -/
def ioCopy : List ReadItem → WriteHalf → Except String WriteHalf
  | [], w => Except.ok w
  | ReadItem.data bs :: rest, w =>
    ioCopy rest { w with written := w.written ++ bs }
  | ReadItem.readErr m :: _, _ => Except.error m

/-- Maps an IO error to a `SocketCloseError` (proxy.rs lines 97-99). -/
def map_io_error (direction : Direction) (err : String) : SocketCloseError :=
  { direction := direction, message := err }

/-- One directional leg of `transfer` (proxy.rs lines 58-94): copy from the
source's read half into the destination's write half, tagging any error with
the leg's direction, then flush-and-shutdown the write half (a fallible
operation, given as `shutdownErr`), also tagged with the direction. -/
def transferLeg (d : Direction) (src : List ReadItem) (w : WriteHalf)
    (shutdownErr : Option String) : Except SocketCloseError WriteHalf :=
  match ioCopy src w with
  | Except.error e => Except.error (map_io_error d e)
  | Except.ok w' =>
    match shutdownErr with
    | some e => Except.error (map_io_error d e)
    | none => Except.ok { w' with isShutdown := true }

/-- Behaviour of the two sockets of one proxied connection: what each read
half yields, and whether each write half's shutdown fails. -/
structure SocketEnv where
  inboundRead : List ReadItem
  outboundRead : List ReadItem
  inboundShutdownErr : Option String
  outboundShutdownErr : Option String
  deriving DecidableEq, Repr

/-- The environment of an idle connection: both sides immediately at
end-of-input and both shutdowns succeed. -/
def emptyEnv : SocketEnv :=
  { inboundRead := [], outboundRead := [],
    inboundShutdownErr := none, outboundShutdownErr := none }

/-- Runs the actual proxying of a socket (`transfer`, proxy.rs lines 58-94):
the client-to-server leg copies inbound reads to the outbound write half,
the server-to-client leg copies outbound reads to the inbound write half,
joined by a both-must-succeed join that resolves with the failure when a leg
fails.  Returns the final outbound and inbound write halves on success. -/
def transfer (env : SocketEnv) : Except SocketCloseError (WriteHalf × WriteHalf) :=
  match transferLeg Direction.clientToServer env.inboundRead
      { written := [], isShutdown := false } env.outboundShutdownErr with
  | Except.error e => Except.error e
  | Except.ok wOut =>
    match transferLeg Direction.serverToClient env.outboundRead
        { written := [], isShutdown := false } env.inboundShutdownErr with
    | Except.error e => Except.error e
    | Except.ok wIn => Except.ok (wOut, wIn)

/-- Proxies the incoming socket to the destination (`handle_connection`,
proxy.rs lines 34-55).  Returns the list of events reported through the
reporter handle, in order, together with the function's return value.  If
the outbound connect fails, the error propagates before any event is
reported; otherwise `Opened` is reported, then the transfer outcome decides
which close event is reported, and the function returns success. -/
def handle_connection (addr : Addr) (connectResult : Except String Unit)
    (env : SocketEnv) : List Event × Except String Unit :=
  match connectResult with
  | Except.error e => ([], Except.error e)
  | Except.ok _ =>
    match transfer env with
    | Except.error err =>
      ([Event.opened addr, Event.closedWithError addr err], Except.ok ())
    | Except.ok _ =>
      ([Event.opened addr, Event.closedGracefully addr], Except.ok ())

/-- Tests whether an `Except` value is an error. -/
def exceptIsError : Except String Unit → Bool
  | Except.error _ => true
  | Except.ok _ => false

/-- Tests whether a list of events begins with `Opened` for an address. -/
def beginsWithOpened (a : Addr) : List Event → Bool
  | Event.opened b :: _ => a == b
  | _ => false

/-- One iteration's worth of input to the accept loop: either a successfully
accepted connection (with its peer address, outbound connect outcome and
socket behaviour) or an accept error. -/
inductive AcceptItem
  | conn (addr : Addr) (connectResult : Except String Unit) (env : SocketEnv)
  | acceptErr (msg : String)
  deriving Repr

/-- Observable outcome of one spawned connection task: the events it sent to
the reporter and the error line printed by the accept-loop wrapper, if any. -/
structure ConnOutcome where
  events : List Event
  logLine : Option String
  deriving DecidableEq, Repr

/-- The spawned wrapper around `handle_connection` (proxy.rs lines 19-27):
when the handler returns an error, the accept loop prints the
"proxying for socket ... failed" line. -/
def runConn (addr : Addr) (connectResult : Except String Unit)
    (env : SocketEnv) : ConnOutcome :=
  match handle_connection addr connectResult env with
  | (evs, Except.ok _) => { events := evs, logLine := none }
  | (evs, Except.error err) =>
    { events := evs,
      logLine := some ("💥️ — proxying for socket " ++ toString addr
        ++ " failed: " ++ err) }

/-- The `while let Ok(..) = listener.accept()` loop (proxy.rs lines 13-28):
each accepted connection is handled (concurrently in the source; their
observable outcomes are collected here in accept order), and the loop ends
at the first accept error, ignoring everything after it. -/
def acceptLoop : List AcceptItem → List ConnOutcome
  | [] => []
  | AcceptItem.acceptErr _ :: _ => []
  | AcceptItem.conn a c env :: rest => runConn a c env :: acceptLoop rest

/-- Tests that a list of accept items contains no accept error. -/
def noAcceptErr : List AcceptItem → Bool
  | [] => true
  | AcceptItem.acceptErr _ :: _ => false
  | AcceptItem.conn _ _ _ :: rest => noAcceptErr rest

/-- Runs the proxy (`run`, proxy.rs lines 8-31): binding failure propagates
as the function's error; otherwise the accept loop runs and the function
returns success (with the outcomes of the handled connections). -/
def run (bindResult : Except String Unit) (accepts : List AcceptItem) :
    Except String (List ConnOutcome) :=
  match bindResult with
  | Except.error e => Except.error e
  | Except.ok _ => Except.ok (acceptLoop accepts)

/-! Helper lemmas about the connected-time map. -/

theorem mapInsert_of_not_mem (a : Addr) (t : Timestamp) (m : ConnMap)
    (h : a ∉ keys m) : mapInsert a t m = m ++ [(a, t)] := by
  induction m with
  | nil => rfl
  | cons p rest ih =>
    obtain ⟨b, u⟩ := p
    have hba : ¬ b = a := fun hh => h (by simp [keys, hh])
    have hrest : a ∉ keys rest := fun hm =>
      h (by simp only [keys, List.map_cons, List.mem_cons]; exact Or.inr hm)
    simp [mapInsert, hba, ih hrest]

theorem mapRemove_of_not_mem (a : Addr) (m : ConnMap) (h : a ∉ keys m) :
    mapRemove a m = none := by
  induction m with
  | nil => rfl
  | cons p rest ih =>
    obtain ⟨b, u⟩ := p
    have hba : ¬ b = a := fun hh => h (by simp [keys, hh])
    have hrest : a ∉ keys rest := fun hm =>
      h (by simp only [keys, List.map_cons, List.mem_cons]; exact Or.inr hm)
    simp [mapRemove, hba, ih hrest]

theorem mapRemove_length (a : Addr) :
    ∀ (m : ConnMap) (t0 : Timestamp) (m' : ConnMap),
      mapRemove a m = some (t0, m') → m'.length + 1 = m.length := by
  intro m
  induction m with
  | nil => intro t0 m' h; exact Option.noConfusion h
  | cons p rest ih =>
    intro t0 m' h
    obtain ⟨b, u⟩ := p
    by_cases hba : b = a
    · simp only [mapRemove, if_pos hba, Option.some.injEq, Prod.mk.injEq] at h
      rw [← h.2]
      rfl
    · simp only [mapRemove, if_neg hba] at h
      cases hrec : mapRemove a rest with
      | none => rw [hrec] at h; exact Option.noConfusion h
      | some q =>
        obtain ⟨v, mm⟩ := q
        rw [hrec] at h
        simp only [Option.some.injEq, Prod.mk.injEq] at h
        rw [← h.2]
        simp only [List.length_cons]
        rw [ih v mm hrec]

theorem mapLookup_mapInsert_self (a : Addr) (t : Timestamp) (m : ConnMap) :
    mapLookup a (mapInsert a t m) = some t := by
  induction m with
  | nil => simp [mapInsert, mapLookup]
  | cons p rest ih =>
    obtain ⟨b, u⟩ := p
    by_cases hba : b = a
    · simp [mapInsert, hba, mapLookup]
    · simp [mapInsert, hba, mapLookup, ih]

theorem mapInsert_length_of_mem (a : Addr) (t : Timestamp) (m : ConnMap)
    (h : a ∈ keys m) : (mapInsert a t m).length = m.length := by
  induction m with
  | nil => simp [keys] at h
  | cons p rest ih =>
    obtain ⟨b, u⟩ := p
    by_cases hba : b = a
    · simp [mapInsert, hba]
    · have hrest : a ∈ keys rest := by
        simp only [keys, List.map_cons, List.mem_cons] at h
        rcases h with h | h
        · exact absurd h.symm hba
        · exact h
      simp [mapInsert, hba, ih hrest]

/-! Helper lemmas about well-formed traces and the processing loop. -/

theorem wfT_take (tr : List (Event × Timestamp)) :
    ∀ (op : ConnMap) (n : Nat), wfT op tr = true → wfT op (tr.take n) = true := by
  induction tr with
  | nil => intro op n _; simp [wfT]
  | cons head rest ih =>
    intro op n h
    cases n with
    | zero => simp [wfT]
    | succ k =>
      obtain ⟨e, t⟩ := head
      cases e with
      | opened a =>
        simp only [List.take_succ_cons, wfT, Bool.and_eq_true] at h ⊢
        exact ⟨h.1, ih _ k h.2⟩
      | closedGracefully a =>
        simp only [List.take_succ_cons, wfT] at h ⊢
        cases hrem : mapRemove a op with
        | none =>
          rw [hrem] at h
          exact Bool.noConfusion h
        | some q =>
          obtain ⟨t0, op'⟩ := q
          rw [hrem] at h
          have h' : (decide (t0 ≤ t) && wfT op' rest) = true := h
          simp only [Bool.and_eq_true] at h'
          show (decide (t0 ≤ t) && wfT op' (List.take k rest)) = true
          simp only [Bool.and_eq_true]
          exact ⟨h'.1, ih _ k h'.2⟩
      | closedWithError a err =>
        simp only [List.take_succ_cons, wfT] at h ⊢
        cases hrem : mapRemove a op with
        | none =>
          rw [hrem] at h
          exact Bool.noConfusion h
        | some q =>
          obtain ⟨t0, op'⟩ := q
          rw [hrem] at h
          have h' : (decide (t0 ≤ t) && wfT op' rest) = true := h
          simp only [Bool.and_eq_true] at h'
          show (decide (t0 ≤ t) && wfT op' (List.take k rest)) = true
          simp only [Bool.and_eq_true]
          exact ⟨h'.1, ih _ k h'.2⟩

theorem processTrace_invariant (tr : List (Event × Timestamp)) :
    ∀ s : ReporterState,
      wfT s.connected_time tr = true →
      s.count = s.connected_time.length →
      ∃ s', processTrace s tr = some s' ∧
        s'.count = s'.connected_time.length ∧
        s'.count + countCloses tr = s.count + countOpens tr := by
  induction tr with
  | nil =>
    intro s _ h2
    exact ⟨s, rfl, h2, by simp [countOpens, countCloses]⟩
  | cons head rest ih =>
    obtain ⟨e, t⟩ := head
    intro s h1 h2
    cases e with
    | opened a =>
      simp only [wfT, Bool.and_eq_true, Bool.not_eq_true', decide_eq_false_iff_not,
        decide_eq_true_eq] at h1
      obtain ⟨hna, hrest⟩ := h1
      have hins := mapInsert_of_not_mem a t s.connected_time hna
      have hwf1 : wfT (mapInsert a t s.connected_time) rest = true := by
        rw [hins]
        exact hrest
      have hlen1 : s.count + 1 = (mapInsert a t s.connected_time).length := by
        rw [hins]
        simp [h2]
      obtain ⟨s', hp, hi, hc⟩ :=
        ih { count := s.count + 1, connected_time := mapInsert a t s.connected_time }
          hwf1 hlen1
      have hc' : s'.count + countCloses rest = (s.count + 1) + countOpens rest := hc
      refine ⟨s', ?_, hi, ?_⟩
      · have hrecv : receive s (Event.opened a) t =
            some { count := s.count + 1, connected_time := mapInsert a t s.connected_time } :=
          rfl
        simpa [processTrace, hrecv] using hp
      · have hgo : countOpens ((Event.opened a, t) :: rest) = countOpens rest + 1 := rfl
        have hgc : countCloses ((Event.opened a, t) :: rest) = countCloses rest := rfl
        rw [hgo, hgc]
        omega
    | closedGracefully a =>
      simp only [wfT] at h1
      cases hrem : mapRemove a s.connected_time with
      | none => rw [hrem] at h1; exact Bool.noConfusion h1
      | some q =>
        obtain ⟨t0, m'⟩ := q
        rw [hrem] at h1
        simp only [Bool.and_eq_true, decide_eq_true_eq] at h1
        obtain ⟨hle, hrest⟩ := h1
        have hlen' := mapRemove_length a s.connected_time t0 m' hrem
        have hcz : ¬ s.count = 0 := by omega
        have hlen1 : s.count - 1 = m'.length := by omega
        obtain ⟨s', hp, hi, hc⟩ :=
          ih { count := s.count - 1, connected_time := m' } hrest hlen1
        have hc' : s'.count + countCloses rest = (s.count - 1) + countOpens rest := hc
        refine ⟨s', ?_, hi, ?_⟩
        · have hnl : ¬ t < t0 := Nat.not_lt.mpr hle
          have hrecv : receive s (Event.closedGracefully a) t =
              some { count := s.count - 1, connected_time := m' } := by
            simp [receive, on_socket_closed, hcz, hrem, hnl]
          simpa [processTrace, hrecv] using hp
        · have hgo : countOpens ((Event.closedGracefully a, t) :: rest) = countOpens rest := rfl
          have hgc : countCloses ((Event.closedGracefully a, t) :: rest) =
              countCloses rest + 1 := rfl
          rw [hgo, hgc]
          omega
    | closedWithError a err =>
      simp only [wfT] at h1
      cases hrem : mapRemove a s.connected_time with
      | none => rw [hrem] at h1; exact Bool.noConfusion h1
      | some q =>
        obtain ⟨t0, m'⟩ := q
        rw [hrem] at h1
        simp only [Bool.and_eq_true, decide_eq_true_eq] at h1
        obtain ⟨hle, hrest⟩ := h1
        have hlen' := mapRemove_length a s.connected_time t0 m' hrem
        have hcz : ¬ s.count = 0 := by omega
        have hlen1 : s.count - 1 = m'.length := by omega
        obtain ⟨s', hp, hi, hc⟩ :=
          ih { count := s.count - 1, connected_time := m' } hrest hlen1
        have hc' : s'.count + countCloses rest = (s.count - 1) + countOpens rest := hc
        refine ⟨s', ?_, hi, ?_⟩
        · have hnl : ¬ t < t0 := Nat.not_lt.mpr hle
          have hrecv : receive s (Event.closedWithError a err) t =
              some { count := s.count - 1, connected_time := m' } := by
            simp [receive, on_socket_closed, hcz, hrem, hnl]
          simpa [processTrace, hrecv] using hp
        · have hgo : countOpens ((Event.closedWithError a err, t) :: rest) =
              countOpens rest := rfl
          have hgc : countCloses ((Event.closedWithError a err, t) :: rest) =
              countCloses rest + 1 := rfl
          rw [hgo, hgc]
          omega

/-! Claim theorems about the reporter actor. -/

/-- Claim C1 (counterexample): the claim's stated precondition — each
`Closed*` event preceded by exactly one unconsumed `Opened` event for its
address — is satisfied by the trace `[Opened 0, Opened 0]` (it has no close
events at all), yet after processing both events the open count is 2 while
the connected-time map has a single entry, so the count does not equal the
number of map entries after each event. -/
theorem claim1_counterexample :
    preC1B [] [(Event.opened 0, 0), (Event.opened 0, 1)] = true ∧
    processTrace initialReporter [(Event.opened 0, 0), (Event.opened 0, 1)] =
      some { count := 2, connected_time := [(0, 1)] } ∧
    stateOk [(Event.opened 0, 0), (Event.opened 0, 1)] 2 = false :=
  ⟨rfl, rfl, rfl⟩

/-- Claim C1 (amended): if additionally no `Opened` event arrives for an
address that is currently open, and no `Closed*` event is processed earlier
than its matching open's stored connect time (`wfT`, which also requires
every `Closed*` to hit a currently open address, i.e. exactly one
unconsumed open), then after each event the processing has not panicked —
neither on the count decrement, nor on the missing-entry `expect`, nor on
the elapsed-time `expect` — and the open count equals the number of entries
in the connected-time map (`stateOk`; in particular every decrement acts on
a positive count, so the count never goes negative), and after the whole
trace the count equals the number of `Opened` events minus the number of
`Closed*` events — i.e. the number of connections that had no terminating
event. -/
theorem claim1_reporter_invariant (tr : List (Event × Timestamp))
    (h : wfT [] tr = true) :
    (∀ n, stateOk tr n = true) ∧
    finalCount tr = some (countOpens tr - countCloses tr) := by
  have key : ∀ tl, wfT [] tl = true →
      ∃ s', processTrace initialReporter tl = some s' ∧
        s'.count = s'.connected_time.length ∧
        s'.count + countCloses tl = countOpens tl := by
    intro tl htl
    obtain ⟨s', hp, hi, hc⟩ := processTrace_invariant tl initialReporter htl rfl
    have hc' : s'.count + countCloses tl = 0 + countOpens tl := hc
    exact ⟨s', hp, hi, by omega⟩
  constructor
  · intro n
    obtain ⟨s', hp, hi, _⟩ := key (tr.take n) (wfT_take tr [] n h)
    simp [stateOk, hp, hi]
  · obtain ⟨s', hp, hi, hc⟩ := key tr h
    have hv : s'.count = countOpens tr - countCloses tr := by omega
    simp [finalCount, hp, hv]

/-- Claim C1 (witness): the amended invariant evaluated on the concrete
trace `[Opened 0 at time 0, ClosedGracefully 0 at time 3]`. -/
theorem claim1_witness :
    stateOk [(Event.opened 0, 0), (Event.closedGracefully 0, 3)] 1 = true ∧
    finalCount [(Event.opened 0, 0), (Event.closedGracefully 0, 3)] = some 0 :=
  ⟨(claim1_reporter_invariant [(Event.opened 0, 0), (Event.closedGracefully 0, 3)]
      (by decide)).1 1,
    (claim1_reporter_invariant [(Event.opened 0, 0), (Event.closedGracefully 0, 3)]
      (by decide)).2⟩

/-- Claim C3: the displayed form of a `SocketCloseError` is the fixed
prefix "Error while forwarding client traffic to the server: " followed
verbatim by the underlying failure message, for both directions; in
particular direction `ClientToServer` with message "damn" displays as
"Error while forwarding client traffic to the server: damn". -/
theorem claim3_close_error_display (d : Direction) (msg : String) :
    SocketCloseError.fmt { direction := d, message := msg } =
      "Error while forwarding client traffic to the server: " ++ msg ∧
    SocketCloseError.fmt { direction := Direction.clientToServer, message := "damn" } =
      "Error while forwarding client traffic to the server: damn" := by
  refine ⟨?_, rfl⟩
  cases d <;> rfl

/-- Claim C6 (counterexample): the converse half of the claim fails as
stated — at state count 1 with address 0 stored at time 5, a close of
address 0 processed at time 3 has a matching unconsumed `Opened` entry
(`mapRemove` succeeds), yet processing still panics (`none`) instead of
computing an elapsed duration, because `elapsed()` fails when the stored
time exceeds the current time and the second `expect` crashes the actor. -/
theorem claim6_counterexample :
    mapRemove 0 [(0, 5)] = some (5, []) ∧
    on_socket_closed { count := 1, connected_time := [(0, 5)] } 0 3 = none :=
  ⟨rfl, rfl⟩

/-- Claim C6 (amended): processing a `Closed*` event whose address has no
entry in the connected-time map panics (`none`), which stops the actor's
processing loop (`processTrace` yields `none` for the whole remaining
trace); conversely, when a matching unconsumed entry is present (so
`mapRemove` succeeds), the count-equals-entries invariant holds, and the
stored connect time is no later than the current time (the clock did not
move backwards), the failure branches are unreachable: the stored
timestamp is removed and the elapsed duration `now - t0` is computed. -/
theorem claim6_missing_entry_panics (s : ReporterState) (a : Addr) (now : Timestamp) :
    (a ∉ keys s.connected_time →
      on_socket_closed s a now = none ∧
      (∀ rest, processTrace s ((Event.closedGracefully a, now) :: rest) = none) ∧
      (∀ rest err, processTrace s ((Event.closedWithError a err, now) :: rest) = none)) ∧
    (∀ t0 m', s.count = s.connected_time.length →
      mapRemove a s.connected_time = some (t0, m') →
      t0 ≤ now →
      on_socket_closed s a now =
        some (now - t0, { count := s.count - 1, connected_time := m' })) := by
  constructor
  · intro hna
    have hrem := mapRemove_of_not_mem a s.connected_time hna
    have hnone : on_socket_closed s a now = none := by
      by_cases hc : s.count = 0
      · simp [on_socket_closed, hc]
      · simp [on_socket_closed, hc, hrem]
    refine ⟨hnone, ?_, ?_⟩
    · intro rest
      simp [processTrace, receive, hnone]
    · intro rest err
      simp [processTrace, receive, hnone]
  · intro t0 m' hinv hrem hle
    have hne : s.connected_time ≠ [] := by
      intro hnil
      rw [hnil] at hrem
      exact Option.noConfusion hrem
    have hlen : 1 ≤ s.connected_time.length := by
      cases hm : s.connected_time with
      | nil => exact absurd hm hne
      | cons q qs => simp [hm]
    have hc : ¬ s.count = 0 := by omega
    have hnl : ¬ now < t0 := Nat.not_lt.mpr hle
    simp [on_socket_closed, hc, hrem, hnl]

/-- Claim C6 (witness): closing address 7 with only address 5 stored
panics, while closing the stored address 5 at time 12 removes its
timestamp 10 and computes the elapsed duration 12 - 10 = 2. -/
theorem claim6_witness :
    on_socket_closed { count := 1, connected_time := [(5, 10)] } 7 12 = none ∧
    on_socket_closed { count := 1, connected_time := [(5, 10)] } 5 12 =
      some (2, { count := 0, connected_time := [] }) :=
  ⟨((claim6_missing_entry_panics { count := 1, connected_time := [(5, 10)] } 7 12).1
      (by decide)).1,
    (claim6_missing_entry_panics { count := 1, connected_time := [(5, 10)] } 5 12).2
      10 [] (by decide) (by decide) (by decide)⟩

/-- Claim C10: processing `Opened` for an address that already has an entry
overwrites the stored timestamp (the lookup afterwards yields the new time)
while leaving the number of entries unchanged, yet still increments the
count, so afterwards the count strictly exceeds the number of map
entries — the count-equals-entries invariant is broken by a double open. -/
theorem claim10_reopen_overstates_count (s : ReporterState) (a : Addr)
    (now : Timestamp) (h1 : a ∈ keys s.connected_time)
    (h2 : s.count = s.connected_time.length) :
    receive s (Event.opened a) now =
      some { count := s.count + 1, connected_time := mapInsert a now s.connected_time } ∧
    mapLookup a (mapInsert a now s.connected_time) = some now ∧
    (mapInsert a now s.connected_time).length = s.connected_time.length ∧
    (mapInsert a now s.connected_time).length < s.count + 1 := by
  refine ⟨rfl, mapLookup_mapInsert_self a now s.connected_time,
    mapInsert_length_of_mem a now s.connected_time h1, ?_⟩
  rw [mapInsert_length_of_mem a now s.connected_time h1]
  omega

/-- Claim C10 (witness): reopening address 3 (stored at time 5) at time 9
overwrites the timestamp, keeps one entry, and raises the count to 2. -/
theorem claim10_witness :
    receive { count := 1, connected_time := [(3, 5)] } (Event.opened 3) 9 =
      some { count := 2, connected_time := [(3, 9)] } ∧
    mapLookup 3 (mapInsert 3 9 [(3, 5)]) = some 9 ∧
    (mapInsert 3 9 [(3, 5)]).length = 1 ∧
    (mapInsert 3 9 [(3, 5)]).length < 2 :=
  claim10_reopen_overstates_count { count := 1, connected_time := [(3, 5)] } 3 9
    (by decide) (by decide)

/-! Helper lemmas about the proxy. -/

theorem ioCopy_data (chunks : List (List Nat)) :
    ∀ w : WriteHalf, ioCopy (chunks.map ReadItem.data) w =
      Except.ok { written := w.written ++ flat chunks, isShutdown := w.isShutdown } := by
  induction chunks with
  | nil => intro w; simp [ioCopy, flat]
  | cons c cs ih =>
    intro w
    simp only [List.map_cons, ioCopy, ih]
    simp [flat]

theorem acceptLoop_stops_at_error (m : String) (suf : List AcceptItem) :
    ∀ pre : List AcceptItem, noAcceptErr pre = true →
      acceptLoop (pre ++ AcceptItem.acceptErr m :: suf) = acceptLoop pre := by
  intro pre
  induction pre with
  | nil => intro _; rfl
  | cons x rest ih =>
    intro h
    cases x with
    | conn a c env =>
      simp only [noAcceptErr] at h
      simp only [List.cons_append, acceptLoop]
      exact congrArg (runConn a c env :: ·) (ih h)
    | acceptErr mm => simp [noAcceptErr] at h

/-! Claim theorems about the proxy. -/

/-- Claim C2: for every sequence of chunks read from one leg's source until
end-of-input (and independently for the other leg), the transfer leg
delivers exactly the concatenation of those bytes, unmodified and in order,
into the receiving end's write half, and then half-closes (flushes and
shuts down) that write half; the full transfer does this for both legs
independently. -/
theorem claim2_transfer_delivers (d : Direction)
    (chunks inChunks outChunks : List (List Nat)) :
    transferLeg d (chunks.map ReadItem.data)
        { written := [], isShutdown := false } none =
      Except.ok { written := flat chunks, isShutdown := true } ∧
    transfer { inboundRead := inChunks.map ReadItem.data,
               outboundRead := outChunks.map ReadItem.data,
               inboundShutdownErr := none, outboundShutdownErr := none } =
      Except.ok ({ written := flat inChunks, isShutdown := true },
                 { written := flat outChunks, isShutdown := true }) := by
  have leg : ∀ (d' : Direction) (cs : List (List Nat)),
      transferLeg d' (cs.map ReadItem.data)
          { written := [], isShutdown := false } none =
        Except.ok { written := flat cs, isShutdown := true } := by
    intro d' cs
    simp [transferLeg, ioCopy_data cs]
  exact ⟨leg d chunks, by simp [transfer, leg]⟩

/-- Claim C4: when the outbound connect succeeded, a successful transfer
makes the relay emit `Opened` then `ClosedGracefully` and return success,
while a failed transfer makes it emit `Opened` then `ClosedWithError` with
that error and still return success; a failed transfer leg's error carries
the direction of the leg that failed, and `map_io_error` pairs that
direction with the underlying failure message verbatim. -/
theorem claim4_close_events (addr : Addr) (env : SocketEnv) :
    (∀ w, transfer env = Except.ok w →
      handle_connection addr (Except.ok ()) env =
        ([Event.opened addr, Event.closedGracefully addr], Except.ok ())) ∧
    (∀ er, transfer env = Except.error er →
      handle_connection addr (Except.ok ()) env =
        ([Event.opened addr, Event.closedWithError addr er], Except.ok ())) ∧
    (∀ (d : Direction) (src : List ReadItem) (w : WriteHalf)
        (sh : Option String) (er : SocketCloseError),
      transferLeg d src w sh = Except.error er → er.direction = d) ∧
    (∀ (d : Direction) (msg : String),
      map_io_error d msg = { direction := d, message := msg }) := by
  refine ⟨?_, ?_, ?_, fun d msg => rfl⟩
  · intro w h
    simp [handle_connection, h]
  · intro er h
    simp [handle_connection, h]
  · intro d src w sh er h
    unfold transferLeg at h
    cases hc : ioCopy src w with
    | error e =>
      rw [hc] at h
      simp only [Except.error.injEq] at h
      rw [← h]
      rfl
    | ok w' =>
      rw [hc] at h
      cases sh with
      | some e =>
        simp only [Except.error.injEq] at h
        rw [← h]
        rfl
      | none => simp at h

/-- Claim C4 (witness): a connection with an idle environment closes
gracefully; one whose inbound read fails with "boom" closes with the
client-to-server error; a failing leg's error carries its direction. -/
theorem claim4_witness :
    handle_connection 4 (Except.ok ()) emptyEnv =
      ([Event.opened 4, Event.closedGracefully 4], Except.ok ()) ∧
    handle_connection 4 (Except.ok ())
        { inboundRead := [ReadItem.readErr "boom"], outboundRead := [],
          inboundShutdownErr := none, outboundShutdownErr := none } =
      ([Event.opened 4, Event.closedWithError 4
          { direction := Direction.clientToServer, message := "boom" }],
        Except.ok ()) ∧
    ({ direction := Direction.serverToClient, message := "x" } :
        SocketCloseError).direction = Direction.serverToClient :=
  ⟨(claim4_close_events 4 emptyEnv).1
      ({ written := [], isShutdown := true }, { written := [], isShutdown := true }) rfl,
    (claim4_close_events 4
        { inboundRead := [ReadItem.readErr "boom"], outboundRead := [],
          inboundShutdownErr := none, outboundShutdownErr := none }).2.1
      { direction := Direction.clientToServer, message := "boom" } rfl,
    (claim4_close_events 4 emptyEnv).2.2.1 Direction.serverToClient
      [ReadItem.readErr "x"] { written := [], isShutdown := false } none
      { direction := Direction.serverToClient, message := "x" } rfl⟩

/-- Claim C5: when the outbound connect fails, the connection's handling
aborts with that error before any event is reported — no `Opened` and no
`Closed*` event is emitted — the accept-loop wrapper logs the failure, and
the loop goes on handling the remaining connections. -/
theorem claim5_connect_failure (addr : Addr) (e : String) (env : SocketEnv)
    (rest : List AcceptItem) :
    handle_connection addr (Except.error e) env = ([], Except.error e) ∧
    runConn addr (Except.error e) env =
      { events := [],
        logLine := some ("💥️ — proxying for socket " ++ toString addr
          ++ " failed: " ++ e) } ∧
    acceptLoop (AcceptItem.conn addr (Except.error e) env :: rest) =
      runConn addr (Except.error e) env :: acceptLoop rest :=
  ⟨rfl, rfl, rfl⟩

/-- Claim C7 (counterexample): a connection whose outbound connect fails is
handled by the relay but emits no events at all, so its event sequence does
not begin with `Opened` followed by a close — the claim fails as stated for
such a connection. -/
theorem claim7_counterexample :
    (handle_connection 7 (Except.error "connection refused") emptyEnv).1 = [] ∧
    beginsWithOpened 7
      (handle_connection 7 (Except.error "connection refused") emptyEnv).1 = false :=
  ⟨rfl, rfl⟩

/-- Claim C7 (amended): every connection handled by the relay either emits
no events at all (exactly when the outbound connect failed), or emits
`Opened` first followed by exactly one of `ClosedGracefully` or
`ClosedWithError`; in every case there are never two close events and never
a close event before an `Opened` event. -/
theorem claim7_event_order (addr : Addr) (c : Except String Unit) (env : SocketEnv) :
    ((handle_connection addr c env).1 = [] ∧ exceptIsError c = true) ∨
    ((handle_connection addr c env).1 =
        [Event.opened addr, Event.closedGracefully addr] ∧ c = Except.ok ()) ∨
    (∃ er, (handle_connection addr c env).1 =
        [Event.opened addr, Event.closedWithError addr er] ∧ c = Except.ok ()) := by
  cases c with
  | error e => exact Or.inl ⟨rfl, rfl⟩
  | ok u =>
    cases u
    cases ht : transfer env with
    | error er =>
      exact Or.inr (Or.inr ⟨er, by simp [handle_connection, ht], rfl⟩)
    | ok w =>
      exact Or.inr (Or.inl ⟨by simp [handle_connection, ht], rfl⟩)

/-- Claim C8: a bind failure propagates as the run function's (fatal)
error; once bound, the accept loop ends at the first accept error — the
connections after it are never handled, there is no retry — and the run
function then returns success with only the connections accepted before the
error handled. -/
theorem claim8_listener_policy (e m : String) (accepts pre suf : List AcceptItem)
    (h : noAcceptErr pre = true) :
    run (Except.error e) accepts = Except.error e ∧
    run (Except.ok ()) (pre ++ AcceptItem.acceptErr m :: suf) =
      Except.ok (acceptLoop pre) := by
  refine ⟨rfl, ?_⟩
  simp only [run, acceptLoop_stops_at_error m suf pre h]

/-- Claim C8 (witness): a failed bind returns that error; an accept error
after one good connection ends the loop, dropping the later connection. -/
theorem claim8_witness :
    run (Except.error "bind failed") [] = Except.error "bind failed" ∧
    run (Except.ok ())
        ([AcceptItem.conn 1 (Except.ok ()) emptyEnv] ++
          AcceptItem.acceptErr "accept failed" ::
            [AcceptItem.conn 2 (Except.ok ()) emptyEnv]) =
      Except.ok (acceptLoop [AcceptItem.conn 1 (Except.ok ()) emptyEnv]) :=
  ⟨(claim8_listener_policy "bind failed" "accept failed" []
      [AcceptItem.conn 1 (Except.ok ()) emptyEnv]
      [AcceptItem.conn 2 (Except.ok ()) emptyEnv] rfl).1,
    (claim8_listener_policy "bind failed" "accept failed" []
      [AcceptItem.conn 1 (Except.ok ()) emptyEnv]
      [AcceptItem.conn 2 (Except.ok ()) emptyEnv] rfl).2⟩

/-- Claim C9: `handle_connection` returns exactly its outbound-connect
result — an error if and only if the connect failed, success otherwise even
when the transfer failed — so the accept loop's "proxying for socket ...
failed" line is printed exactly for connections whose connect failed. -/
theorem claim9_result_mirrors_connect (addr : Addr) (c : Except String Unit)
    (env : SocketEnv) :
    (handle_connection addr c env).2 = c ∧
    ((runConn addr c env).logLine).isSome = exceptIsError c := by
  cases c with
  | error e => exact ⟨rfl, rfl⟩
  | ok u =>
    cases u
    cases ht : transfer env with
    | error er =>
      constructor <;> simp [handle_connection, runConn, ht, exceptIsError]
    | ok w =>
      constructor <;> simp [handle_connection, runConn, ht, exceptIsError]

end Sockgauge
